import Mathlib

/-!
Verification of the Wallspace spatial layout and measurement engine.

Each definition below is a shallow embedding of a function of the
Wallspace source (vanilla JS).  Pixel quantities, physical quantities and
scale factors are modelled as rationals; DOM state read by a function is
passed as explicit arguments, and DOM state written by a function is
returned.  The source file and function each definition embeds is named
in its doc comment.
-/

namespace Wallspace

/-- Measurement units accepted by the conversion helpers
(strings "inches" / "cm" / "mm" in the source). -/
inductive MeasUnit
  | inches
  | cm
  | mm
deriving DecidableEq

/-- utils.js `inchesToCm`. -/
def inchesToCm (inches : ℚ) : ℚ := inches * 2.54

/-- utils.js `cmToInches`. -/
def cmToInches (cm : ℚ) : ℚ := cm / 2.54

/-- utils.js `inchesToMm`. -/
def inchesToMm (inches : ℚ) : ℚ := inches * 25.4

/-- utils.js `mmToInches`. -/
def mmToInches (mm : ℚ) : ℚ := mm / 25.4

/-- utils.js `unitsToPixels(value, units)`: convert to inches, then scale by
the global `wallScale` (passed explicitly here). -/
def unitsToPixels (value : ℚ) (units : MeasUnit) (wallScale : ℚ) : ℚ :=
  let inches :=
    match units with
    | .cm => cmToInches value
    | .mm => mmToInches value
    | .inches => value
  inches * wallScale

/-- utils.js `pixelsToUnits(pixels, units)`: divide by the global
`wallScale` (passed explicitly here), then convert to the target unit. -/
def pixelsToUnits (pixels : ℚ) (units : MeasUnit) (wallScale : ℚ) : ℚ :=
  let inches := pixels / wallScale
  match units with
  | .cm => inchesToCm inches
  | .mm => inchesToMm inches
  | .inches => inches

/-- framing.js `updateSelectedArtwork`, geometry part: the total pixel
width/height written to the artwork container, given the frame/matte
checkboxes, the sidebar width/height/frame-size/matte-size fields, the
sidebar unit selector, and the current wall scale.  Mirrors the source:
when either flag is set the total starts at the image pixel size and
accumulates `2 *` the matte pixels (if `hasMatte`) and `2 *` the frame
pixels (if `hasFrame`); otherwise the container is exactly the image
pixel size. -/
def updateSelectedArtwork (hasFrame hasMatte : Bool)
    (artworkWidth artworkHeight frameSize matteSize : ℚ)
    (units : MeasUnit) (wallScale : ℚ) : ℚ × ℚ :=
  let artworkWidthPixels := unitsToPixels artworkWidth units wallScale
  let artworkHeightPixels := unitsToPixels artworkHeight units wallScale
  let frameSizePixels := unitsToPixels frameSize units wallScale
  let matteSizePixels := unitsToPixels matteSize units wallScale
  if hasFrame || hasMatte then
    let totalWidth := artworkWidthPixels
    let totalHeight := artworkHeightPixels
    let totalWidth := if hasMatte then totalWidth + matteSizePixels * 2 else totalWidth
    let totalHeight := if hasMatte then totalHeight + matteSizePixels * 2 else totalHeight
    let totalWidth := if hasFrame then totalWidth + frameSizePixels * 2 else totalWidth
    let totalHeight := if hasFrame then totalHeight + frameSizePixels * 2 else totalHeight
    (totalWidth, totalHeight)
  else
    (artworkWidthPixels, artworkHeightPixels)

/-- Models `Number.prototype.toFixed(1)` followed by re-parsing, as used on
the sidebar width field in artwork.js `updateArtworkSize`: rounding to one
decimal place.  (The exact tie-breaking of `toFixed` is immaterial to the
theorems below, which treat `round1` as an opaque rounding to tenths.) -/
def round1 (x : ℚ) : ℚ := ((round (x * 10) : ℤ) : ℚ) / 10

/-- artwork.js `updateArtworkSize`, geometry part: given the
maintain-ratio checkbox, the stored aspect ratio for the selected artwork
(`none` when `artworkAspectRatios` has no entry), and the entered
width/height fields, returns the resulting (width, height) field values.
When the ratio is maintained and the entered height deviates from
`width / aspect` by more than `0.1`, the width field is rewritten to
`height * aspect` (through `toFixed(1)`); the height field is never
rewritten. -/
def updateArtworkSize (maintainAspect : Bool) (aspect : Option ℚ)
    (width height : ℚ) : ℚ × ℚ :=
  match maintainAspect, aspect with
  | true, some a =>
    let expectedHeight := width / a
    if 1/10 < |height - expectedHeight| then (round1 (height * a), height)
    else (width, height)
  | _, _ => (width, height)

/-- ui.js `initUIEventHandlers`, resize branch, aspect step: the pointer
here requests `(newWidth, newHeight)`; if the requested ratio exceeds the
current aspect ratio the width is clamped down to `newHeight * aspect`,
otherwise the height is clamped down to `newWidth / aspect`. -/
def aspectClamp (aspect newWidth newHeight : ℚ) : ℚ × ℚ :=
  if aspect < newWidth / newHeight then (newHeight * aspect, newHeight)
  else (newWidth, newWidth / aspect)

/-- ui.js `initUIEventHandlers`, resize branch: the aspect ratio is read
from the artwork's current `offsetWidth / offsetHeight`; after the aspect
step each dimension is independently raised to the 50-pixel minimum. -/
def handleResize (curWidth curHeight newWidth newHeight : ℚ) : ℚ × ℚ :=
  let aspect := curWidth / curHeight
  let p := aspectClamp aspect newWidth newHeight
  (max 50 p.1, max 50 p.2)

/-- The per-artwork DOM style state touched by wall.js `updateWall` when
rescaling: inline `left`/`top`/`width`/`height` in pixels, the optional
`.image-container` inline pixel size (set only once frame/matte styling
has run), and the optional `.frame` / `.matte` inline `padding` values
(`none` models an unset padding style). -/
structure ArtworkEl where
  left : ℚ
  top : ℚ
  width : ℚ
  height : ℚ
  containerSize : Option (ℚ × ℚ)
  framePadding : Option ℚ
  mattePadding : Option ℚ
deriving DecidableEq

/-- wall.js `updateWall`, body of the per-artwork rescale loop: position,
size and image-container size are multiplied by the scale factor; a
frame/matte padding is multiplied only when it is set and nonzero (the
source skips paddings equal to `0` or `0px`). -/
def rescaleArtwork (factor : ℚ) (a : ArtworkEl) : ArtworkEl :=
  { left := a.left * factor
    top := a.top * factor
    width := a.width * factor
    height := a.height * factor
    containerSize := a.containerSize.map (fun wh => (wh.1 * factor, wh.2 * factor))
    framePadding := a.framePadding.map (fun p => if p = 0 then p else p * factor)
    mattePadding := a.mattePadding.map (fun p => if p = 0 then p else p * factor) }

/-- wall.js `updateWall`, artwork-rescale phase: after the new
`wallScale` has been computed, every artwork is rescaled by
`wallScale / oldWallScale` — but only when the scale actually changed and
the old scale is not `1` (the initial sentinel value of `wallScale`). -/
def updateWallRescale (oldWallScale newWallScale : ℚ)
    (artworks : List ArtworkEl) : List ArtworkEl :=
  if oldWallScale ≠ newWallScale ∧ oldWallScale ≠ 1 then
    artworks.map (rescaleArtwork (newWallScale / oldWallScale))
  else artworks

/-- A wall-relative bounding rectangle as distance-guides.js derives it
from `getBoundingClientRect` (left/top relative to the wall, plus pixel
width/height). -/
structure Rect where
  left : ℚ
  top : ℚ
  width : ℚ
  height : ℚ
deriving DecidableEq

/-- `otherRight = otherLeft + otherRect.width` in the source. -/
def Rect.right (r : Rect) : ℚ := r.left + r.width

/-- `otherBottom = otherTop + otherRect.height` in the source. -/
def Rect.bottom (r : Rect) : ℚ := r.top + r.height

/-- `centerX = artworkLeft + artworkRect.width / 2` in the source. -/
def Rect.centerX (r : Rect) : ℚ := r.left + r.width / 2

/-- `centerY = artworkTop + artworkRect.height / 2` in the source. -/
def Rect.centerY (r : Rect) : ℚ := r.top + r.height / 2

/-- distance-guides.js `verticalOverlap`:
`Math.max(0, Math.min(artworkBottom, otherBottom) - Math.max(artworkTop, otherTop))`. -/
def verticalOverlap (s o : Rect) : ℚ :=
  max 0 (min s.bottom o.bottom - max s.top o.top)

/-- distance-guides.js `horizontalOverlap`:
`Math.max(0, Math.min(artworkRight, otherRight) - Math.max(artworkLeft, otherLeft))`. -/
def horizontalOverlap (s o : Rect) : ℚ :=
  max 0 (min s.right o.right - max s.left o.left)

/-- One step of the nearest-candidate accumulation in
distance-guides.js `updateDistanceGuides`: a box passing the candidacy
test replaces the running nearest exactly when its gap is strictly
smaller (the running distance starts at `Infinity`, modelled by `none`). -/
def scanStep (cand : Rect → Prop) [DecidablePred cand] (dist : Rect → ℚ)
    (acc : Option (Rect × ℚ)) (o : Rect) : Option (Rect × ℚ) :=
  if cand o then
    match acc with
    | none => some (o, dist o)
    | some p => if dist o < p.2 then some (o, dist o) else some p
  else acc

/-- The `otherArtworks.forEach` fold of distance-guides.js
`updateDistanceGuides`, specialised to one direction by its candidacy
predicate and gap function. -/
def scanNearest (cand : Rect → Prop) [DecidablePred cand] (dist : Rect → ℚ)
    (others : List Rect) : Option (Rect × ℚ) :=
  others.foldl (scanStep cand dist) none

/-- Left-direction candidacy in the source:
`otherRight <= artworkLeft` and `verticalOverlap > 0`. -/
def isLeftCand (s o : Rect) : Prop :=
  o.right ≤ s.left ∧ 0 < verticalOverlap s o

/-- Right-direction candidacy in the source:
`otherLeft >= artworkRight` and `verticalOverlap > 0`. -/
def isRightCand (s o : Rect) : Prop :=
  s.right ≤ o.left ∧ 0 < verticalOverlap s o

/-- Top-direction candidacy in the source:
`otherBottom <= artworkTop` and `horizontalOverlap > 0`. -/
def isTopCand (s o : Rect) : Prop :=
  o.bottom ≤ s.top ∧ 0 < horizontalOverlap s o

/-- Bottom-direction candidacy in the source:
`otherTop >= artworkBottom` and `horizontalOverlap > 0`. -/
def isBottomCand (s o : Rect) : Prop :=
  s.bottom ≤ o.top ∧ 0 < horizontalOverlap s o

instance (s : Rect) : DecidablePred (isLeftCand s) :=
  fun _o => inferInstanceAs (Decidable (_ ∧ _))

instance (s : Rect) : DecidablePred (isRightCand s) :=
  fun _o => inferInstanceAs (Decidable (_ ∧ _))

instance (s : Rect) : DecidablePred (isTopCand s) :=
  fun _o => inferInstanceAs (Decidable (_ ∧ _))

instance (s : Rect) : DecidablePred (isBottomCand s) :=
  fun _o => inferInstanceAs (Decidable (_ ∧ _))

/-- `nearestLeft` / `nearestLeftDist` after the `forEach` loop; the gap is
`artworkLeft - otherRight`. -/
def nearestLeft (s : Rect) (others : List Rect) : Option (Rect × ℚ) :=
  scanNearest (isLeftCand s) (fun o => s.left - o.right) others

/-- `nearestRight` / `nearestRightDist` after the `forEach` loop; the gap
is `otherLeft - artworkRight`. -/
def nearestRight (s : Rect) (others : List Rect) : Option (Rect × ℚ) :=
  scanNearest (isRightCand s) (fun o => o.left - s.right) others

/-- `nearestTop` / `nearestTopDist` after the `forEach` loop; the gap is
`artworkTop - otherBottom`. -/
def nearestTop (s : Rect) (others : List Rect) : Option (Rect × ℚ) :=
  scanNearest (isTopCand s) (fun o => s.top - o.bottom) others

/-- `nearestBottom` / `nearestBottomDist` after the `forEach` loop; the
gap is `otherTop - artworkBottom`. -/
def nearestBottom (s : Rect) (others : List Rect) : Option (Rect × ℚ) :=
  scanNearest (isBottomCand s) (fun o => o.top - s.bottom) others

/-- Two boxes overlap: both axis projections overlap by a strictly
positive amount (positive-area intersection). -/
def rectsOverlap (s o : Rect) : Prop :=
  0 < horizontalOverlap s o ∧ 0 < verticalOverlap s o

/-- A drawn guide segment: the four coordinates passed to
distance-guides.js `drawGuide`. -/
structure Guide where
  x1 : ℚ
  y1 : ℚ
  x2 : ℚ
  y2 : ℚ
deriving DecidableEq

/-- distance-guides.js, "Left side" block: with a nearest-left neighbor
the segment runs from the neighbor's right edge to the artwork's left
edge at `guideY = (centerY + otherCenterY) / 2`; otherwise a guide to the
wall edge is drawn only when `artworkLeft > 0`, at the artwork's own
center line. -/
def leftGuide (s : Rect) (others : List Rect) : Option Guide :=
  match nearestLeft s others with
  | some (o, _) =>
    let otherCenterY := o.top + o.height / 2
    let guideY := (s.centerY + otherCenterY) / 2
    some ⟨o.right, guideY, s.left, guideY⟩
  | none =>
    if 0 < s.left then some ⟨0, s.centerY, s.left, s.centerY⟩ else none

/-- distance-guides.js, "Right side" block: with a nearest-right neighbor
the segment runs from the artwork's right edge to the neighbor's left
edge at `guideY = (centerY + otherCenterY) / 2`; otherwise a guide to the
wall edge is drawn only when `artworkRight < wallWidth`, at the artwork's
own center line. -/
def rightGuide (s : Rect) (others : List Rect) (wallWidth : ℚ) : Option Guide :=
  match nearestRight s others with
  | some (o, _) =>
    let otherCenterY := o.top + o.height / 2
    let guideY := (s.centerY + otherCenterY) / 2
    some ⟨s.right, guideY, o.left, guideY⟩
  | none =>
    if s.right < wallWidth then some ⟨s.right, s.centerY, wallWidth, s.centerY⟩
    else none

/-- distance-guides.js, "Top side" block. -/
def topGuide (s : Rect) (others : List Rect) : Option Guide :=
  match nearestTop s others with
  | some (o, _) =>
    let otherCenterX := o.left + o.width / 2
    let guideX := (s.centerX + otherCenterX) / 2
    some ⟨guideX, o.bottom, guideX, s.top⟩
  | none =>
    if 0 < s.top then some ⟨s.centerX, 0, s.centerX, s.top⟩ else none

/-- distance-guides.js, "Bottom side" block. -/
def bottomGuide (s : Rect) (others : List Rect) (wallHeight : ℚ) : Option Guide :=
  match nearestBottom s others with
  | some (o, _) =>
    let otherCenterX := o.left + o.width / 2
    let guideX := (s.centerX + otherCenterX) / 2
    some ⟨guideX, s.bottom, guideX, o.top⟩
  | none =>
    if s.bottom < wallHeight then
      some ⟨s.centerX, s.bottom, s.centerX, wallHeight⟩
    else none

/-- Written from the spec text, for comparison with the code (claim C7):
the midpoint of the two boxes' overlap segment on the vertical axis,
`(max of tops + min of bottoms) / 2`. -/
def overlapSegmentMidY (s o : Rect) : ℚ :=
  (max s.top o.top + min s.bottom o.bottom) / 2

/-- A JSON value, as produced by `JSON.parse`; layout records and their
fields are arbitrary such values (the import path performs no per-record
validation). -/
inductive Json
  | null
  | bool (b : Bool)
  | num (q : ℚ)
  | str (s : String)
  | arr (elems : List Json)
  | obj (fields : List (String × Json))

/-- The storage-related state of storage.js: the in-memory `savedLayouts`
array, and the durable `localStorage` blob under key `wallArtLayouts`
viewed through its parse outcome — `none` when the key is absent,
`some none` when the stored string does not parse as JSON, and
`some (some xs)` when it parses to the array `xs`. -/
structure StorageState where
  savedLayouts : List Json
  durable : Option (Option (List Json))

/-- storage.js `saveLayoutsToStorage`: `localStorage.setItem` serialises
the whole in-memory array; on quota failure it alerts and returns
`false`, leaving the durable blob untouched (the in-memory array is not
rolled back either way). -/
def saveLayoutsToStorage (quotaFails : Bool) (st : StorageState) :
    StorageState × Bool :=
  if quotaFails then (st, false)
  else ({ savedLayouts := st.savedLayouts, durable := some (some st.savedLayouts) }, true)

/-- storage.js `loadSavedLayouts`, state part: re-reads the durable blob;
an absent key or a parse error (caught by the `try`/`catch`) resets the
in-memory array to `[]` without raising. -/
def loadSavedLayouts (st : StorageState) : StorageState :=
  match st.durable with
  | some (some xs) => { savedLayouts := xs, durable := st.durable }
  | _ => { savedLayouts := [], durable := st.durable }

/-- storage.js `saveLayout`: the new layout record is pushed onto the
in-memory array first; only then is the durable write attempted, and on
success the list UI is re-rendered via `loadSavedLayouts`.  Returns the
new state plus whether the durable write succeeded. -/
def saveLayout (newLayout : Json) (quotaFails : Bool) (st : StorageState) :
    StorageState × Bool :=
  let st1 : StorageState :=
    { savedLayouts := st.savedLayouts ++ [newLayout], durable := st.durable }
  let res := saveLayoutsToStorage quotaFails st1
  if res.2 then (loadSavedLayouts res.1, true) else (res.1, false)

/-- Outcome of storage.js `importLayouts`: the resulting storage state,
whether the error alert fired, and the count named in the confirmation
prompt (`none` when no confirmation was requested). -/
structure ImportResult where
  state : StorageState
  errorAlerted : Bool
  confirmCount : Option Nat

/-- storage.js `importLayouts`: `parsed` is the outcome of `JSON.parse`
on the file (`none` = parse exception).  A non-array parse result throws
into the `catch`, which alerts and leaves state untouched.  For an array,
a confirmation naming the element count is requested; on acceptance the
elements are pushed onto the in-memory array, the collection is written
to durable storage, and the list is re-rendered via `loadSavedLayouts`. -/
def importLayouts (parsed : Option Json) (confirmAccepts quotaFails : Bool)
    (st : StorageState) : ImportResult :=
  match parsed with
  | none => ⟨st, true, none⟩
  | some (Json.arr importedLayouts) =>
    if confirmAccepts then
      let st1 : StorageState :=
        { savedLayouts := st.savedLayouts ++ importedLayouts, durable := st.durable }
      let res := saveLayoutsToStorage quotaFails st1
      ⟨loadSavedLayouts res.1, false, some importedLayouts.length⟩
    else ⟨st, false, some importedLayouts.length⟩
  | some _ => ⟨st, true, none⟩

/-! ## Theorems -/

/-- C3 counterexample: at logical size 10in by 8in with a 2in matte and a
1in frame at 10 px/in, the code computes a 160 px by 140 px total box
(`(10 + 2*2 + 2*1) * 10` and `(8 + 2*2 + 2*1) * 10`), not the 130 px by
110 px the claim names. -/
theorem totalSize_c3_counterexample :
    updateSelectedArtwork true true 10 8 1 2 .inches 10 = (160, 140) ∧
    ((160 : ℚ), (140 : ℚ)) ≠ ((130 : ℚ), (110 : ℚ)) := by
  constructor
  · norm_num [updateSelectedArtwork, unitsToPixels]
  · simp

/-- C3 (amended): the total pixel box of an artwork of logical size
`(w, h)` canonical units at `s` px/in is
`(w + 2*matteWidth if hasMatte + 2*frameWidth if hasFrame) * s` (and
analogously for height), matte and frame independently toggleable; the
named instance (10in by 8in, 2in matte, 1in frame, 10 px/in) yields a
160 px by 140 px total box. -/
theorem totalSize_c3 :
    (∀ (hasFrame hasMatte : Bool) (w h f m s : ℚ),
      updateSelectedArtwork hasFrame hasMatte w h f m .inches s =
        ((w + (if hasMatte then 2 * m else 0) + (if hasFrame then 2 * f else 0)) * s,
         (h + (if hasMatte then 2 * m else 0) + (if hasFrame then 2 * f else 0)) * s)) ∧
    updateSelectedArtwork true true 10 8 1 2 .inches 10 = (160, 140) := by
  have hgen : ∀ (hasFrame hasMatte : Bool) (w h f m s : ℚ),
      updateSelectedArtwork hasFrame hasMatte w h f m .inches s =
        ((w + (if hasMatte then 2 * m else 0) + (if hasFrame then 2 * f else 0)) * s,
         (h + (if hasMatte then 2 * m else 0) + (if hasFrame then 2 * f else 0)) * s) := by
    intro hasFrame hasMatte w h f m s
    cases hasFrame <;> cases hasMatte <;>
      simp [updateSelectedArtwork, unitsToPixels, Prod.mk.injEq] <;>
      constructor <;> ring
  refine ⟨hgen, ?_⟩
  rw [hgen]
  norm_num

/-- C4 counterexample: an artwork currently 100 px by 50 px (aspect ratio
2) resized toward the requested 10 px by 10 px point ends at 50 px by
50 px — both dimensions at the floor — whose ratio 1 is not the aspect
ratio 2, so aspect is not preserved for requests below the floor. -/
theorem handleResize_c4_counterexample :
    handleResize 100 50 10 10 = (50, 50) ∧
    ¬ ((50 : ℚ) / 50 = (100 : ℚ) / 50) := by
  constructor
  · norm_num [handleResize, aspectClamp]
  · norm_num

/-- C4 (amended): the clamp rule is as claimed (width clamped down to
`height * aspect` when the requested ratio exceeds the aspect ratio,
otherwise height clamped down to `width / aspect`), and each resulting
dimension is at least the 50 px floor; but the floor is applied to each
dimension independently after the aspect step, so the aspect ratio is
preserved only when neither aspect-clamped dimension falls below the
floor. -/
theorem handleResize_c4 (curW curH reqW reqH : ℚ)
    (hW : 0 < curW) (hH : 0 < curH) :
    50 ≤ (handleResize curW curH reqW reqH).1 ∧
    50 ≤ (handleResize curW curH reqW reqH).2 ∧
    (curW / curH < reqW / reqH →
      aspectClamp (curW / curH) reqW reqH = (reqH * (curW / curH), reqH)) ∧
    (¬ curW / curH < reqW / reqH →
      aspectClamp (curW / curH) reqW reqH = (reqW, reqW / (curW / curH))) ∧
    (50 ≤ (aspectClamp (curW / curH) reqW reqH).1 →
      50 ≤ (aspectClamp (curW / curH) reqW reqH).2 →
      handleResize curW curH reqW reqH = aspectClamp (curW / curH) reqW reqH ∧
      (handleResize curW curH reqW reqH).1 / (handleResize curW curH reqW reqH).2
        = curW / curH) := by
  have ha : 0 < curW / curH := div_pos hW hH
  have ha' : curW / curH ≠ 0 := ne_of_gt ha
  refine ⟨le_max_left _ _, le_max_left _ _, ?_, ?_, ?_⟩
  · intro hc
    simp [aspectClamp, if_pos hc]
  · intro hc
    simp [aspectClamp, if_neg hc]
  · intro h1 h2
    have hr : handleResize curW curH reqW reqH = aspectClamp (curW / curH) reqW reqH := by
      simp only [handleResize]
      rw [max_eq_right h1, max_eq_right h2]
    refine ⟨hr, ?_⟩
    rw [hr]
    unfold aspectClamp at h1 h2 ⊢
    by_cases hc : curW / curH < reqW / reqH
    · rw [if_pos hc] at h1 h2 ⊢
      have hne : reqH ≠ 0 := by
        intro h0
        rw [h0] at h2
        norm_num at h2
      simp only
      rw [mul_comm, mul_div_assoc]
      rw [div_self hne, mul_one]
    · rw [if_neg hc] at h1 h2 ⊢
      have hne : reqW ≠ 0 := by
        intro h0
        rw [h0] at h1
        norm_num at h1
      simp only
      rw [div_div_eq_mul_div, mul_comm, mul_div_assoc, div_self hne, mul_one]

/-- C4 witness: resizing a 100 px by 50 px artwork toward the requested
300 px by 60 px point keeps the aspect ratio (result 120 px by 60 px)
because neither clamped dimension falls below the 50 px floor. -/
theorem handleResize_c4_witness :
    handleResize 100 50 300 60 = (120, 60) ∧ (120 : ℚ) / 60 = (100 : ℚ) / 50 := by
  have hclamp : aspectClamp ((100 : ℚ) / 50) 300 60 = (120, 60) := by
    norm_num [aspectClamp]
  have h := handleResize_c4 100 50 300 60 (by norm_num) (by norm_num)
  have h5 := h.2.2.2.2 (by rw [hclamp]; norm_num) (by rw [hclamp]; norm_num)
  refine ⟨by rw [h5.1, hclamp], ?_⟩
  have := h5.2
  rw [h5.1, hclamp] at this
  simpa using this

/-- C5: with the ratio lock on and a stored aspect ratio, whenever the
entered height deviates from `width / aspect` by more than the 0.1
epsilon the width field is recomputed from the height (to one decimal)
and the height is kept as the driver; otherwise both fields pass through.
Applying the same update to the resulting fields returns them unchanged,
and in particular width 10 with height 5 at aspect ratio 2 yields
(10, 5) on both of two consecutive calls. -/
theorem updateArtworkSize_c5 :
    (∀ (a w h : ℚ),
      (1/10 < |h - w / a| →
        updateArtworkSize true (some a) w h = (round1 (h * a), h)) ∧
      (¬ 1/10 < |h - w / a| →
        updateArtworkSize true (some a) w h = (w, h)) ∧
      updateArtworkSize true (some a)
          (updateArtworkSize true (some a) w h).1
          (updateArtworkSize true (some a) w h).2
        = updateArtworkSize true (some a) w h) ∧
    updateArtworkSize true (some 2) 10 5 = (10, 5) ∧
    updateArtworkSize true (some 2)
        (updateArtworkSize true (some 2) 10 5).1
        (updateArtworkSize true (some 2) 10 5).2 = (10, 5) := by
  have hdev : ∀ (a w h : ℚ), 1/10 < |h - w / a| →
      updateArtworkSize true (some a) w h = (round1 (h * a), h) := by
    intro a w h hd
    show (if 1/10 < |h - w / a| then (round1 (h * a), h) else (w, h))
        = (round1 (h * a), h)
    rw [if_pos hd]
  have hkeep : ∀ (a w h : ℚ), ¬ 1/10 < |h - w / a| →
      updateArtworkSize true (some a) w h = (w, h) := by
    intro a w h hd
    show (if 1/10 < |h - w / a| then (round1 (h * a), h) else (w, h)) = (w, h)
    rw [if_neg hd]
  have hidem : ∀ (a w h : ℚ),
      updateArtworkSize true (some a)
          (updateArtworkSize true (some a) w h).1
          (updateArtworkSize true (some a) w h).2
        = updateArtworkSize true (some a) w h := by
    intro a w h
    by_cases hd : 1/10 < |h - w / a|
    · rw [hdev a w h hd]
      by_cases hd2 : 1/10 < |h - round1 (h * a) / a|
      · rw [hdev a (round1 (h * a)) h hd2]
      · rw [hkeep a (round1 (h * a)) h hd2]
    · rw [hkeep a w h hd]
      rw [hkeep a w h hd]
  have hfive : updateArtworkSize true (some 2) 10 5 = (10, 5) := by
    apply hkeep
    norm_num
  refine ⟨fun a w h => ⟨hdev a w h, hkeep a w h, hidem a w h⟩, hfive, ?_⟩
  rw [hfive]
  exact hfive

/-- C5 witness: at aspect ratio 2, entered fields (10, 7) deviate by 2
from the ratio, so the width is recomputed to 14 and the height kept;
a second identical call leaves (14, 7) unchanged. -/
theorem updateArtworkSize_c5_witness :
    (1/10 : ℚ) < |7 - 10 / 2| ∧
    updateArtworkSize true (some 2) 10 7 = (14, 7) ∧
    updateArtworkSize true (some 2) 14 7 = (14, 7) := by
  have hd : (1/10 : ℚ) < |7 - 10 / 2| := by norm_num
  have h1 := (updateArtworkSize_c5.1 2 10 7).1 hd
  have hr : round1 ((7 : ℚ) * 2) = 14 := by
    have : ((7 : ℚ) * 2) * 10 = ((140 : ℤ) : ℚ) := by norm_num
    rw [round1, this, round_intCast]
    norm_num
  rw [hr] at h1
  have h2 := (updateArtworkSize_c5.1 2 14 7).2.1 (by norm_num)
  exact ⟨hd, h1, h2⟩

/-- C6: an import whose JSON does not parse, or parses to a non-array,
alerts an error and leaves both the in-memory collection and the durable
blob unchanged; an import parsing to an array requests a confirmation
naming the element count and, on acceptance (with the durable write
succeeding), appends exactly those elements in order to the existing
collection, never replacing it; a declined confirmation changes
nothing. -/
theorem importLayouts_c6 :
    (∀ (c q : Bool) (st : StorageState),
      importLayouts none c q st = ⟨st, true, none⟩) ∧
    (∀ (c q : Bool) (st : StorageState) (j : Json),
      (∀ xs, j ≠ Json.arr xs) →
      importLayouts (some j) c q st = ⟨st, true, none⟩) ∧
    (∀ (st : StorageState) (xs : List Json),
      importLayouts (some (Json.arr xs)) true false st =
        ⟨{ savedLayouts := st.savedLayouts ++ xs,
           durable := some (some (st.savedLayouts ++ xs)) }, false, some xs.length⟩) ∧
    (∀ (q : Bool) (st : StorageState) (xs : List Json),
      importLayouts (some (Json.arr xs)) false q st = ⟨st, false, some xs.length⟩) := by
  refine ⟨fun c q st => rfl, ?_, ?_, ?_⟩
  · intro c q st j hj
    cases j with
    | arr xs => exact absurd rfl (hj xs)
    | null => rfl
    | bool b => rfl
    | num n => rfl
    | str s => rfl
    | obj fields => rfl
  · intro st xs
    simp [importLayouts, saveLayoutsToStorage, loadSavedLayouts]
  · intro q st xs
    simp [importLayouts]

/-- C6 witness: importing a file whose top level parses to an object is
rejected with the error alert and no confirmation, and the collection
(one existing layout, in sync with the durable blob) is untouched. -/
theorem importLayouts_c6_witness :
    importLayouts (some (Json.obj [])) true false
        ⟨[Json.null], some (some [Json.null])⟩ =
      ⟨⟨[Json.null], some (some [Json.null])⟩, true, none⟩ :=
  importLayouts_c6.2.1 true false ⟨[Json.null], some (some [Json.null])⟩
    (Json.obj []) (fun _xs h => Json.noConfusion h)

/-- C8: when the durable write fails (storage quota), the layout record
just built is still appended to the in-memory `savedLayouts` while the
durable blob is untouched and the function reports failure, so a
previously synchronised in-memory list and durable blob now diverge:
the save is not atomic with respect to the durable store. -/
theorem saveLayout_c8 (L : Json) (st : StorageState)
    (hsync : st.durable = some (some st.savedLayouts)) :
    (saveLayout L true st).1.savedLayouts = st.savedLayouts ++ [L] ∧
    (saveLayout L true st).1.durable = st.durable ∧
    (saveLayout L true st).2 = false ∧
    (saveLayout L true st).1.durable ≠
      some (some (saveLayout L true st).1.savedLayouts) := by
  have hsl : saveLayout L true st =
      ({ savedLayouts := st.savedLayouts ++ [L], durable := st.durable }, false) := by
    simp [saveLayout, saveLayoutsToStorage]
  rw [hsl]
  refine ⟨rfl, rfl, rfl, ?_⟩
  simp only [hsync]
  intro h
  have h2 : st.savedLayouts = st.savedLayouts ++ [L] :=
    Option.some_injective _ (Option.some_injective _ h)
  have := congrArg List.length h2
  simp at this

/-- C8 witness: saving a layout onto an empty, synchronised store while
the quota write fails leaves the record in memory, reports failure, and
leaves the durable blob stale. -/
theorem saveLayout_c8_witness :
    (saveLayout Json.null true ⟨[], some (some [])⟩).1.savedLayouts
        = [] ++ [Json.null] ∧
    (saveLayout Json.null true ⟨[], some (some [])⟩).2 = false ∧
    (saveLayout Json.null true ⟨[], some (some [])⟩).1.durable = some (some []) := by
  have h := saveLayout_c8 Json.null ⟨[], some (some [])⟩ rfl
  exact ⟨h.1, h.2.2.1, h.2.1⟩

/-- C9: the import path checks only that the parsed top level is an
array; its elements — JSON values of arbitrary shape, objects or not,
with or without any particular fields — are all appended to the
collection with no per-record validation, as the concrete mixed-shape
instance illustrates. -/
theorem importLayouts_c9 :
    (∀ (st : StorageState) (xs : List Json),
      (importLayouts (some (Json.arr xs)) true false st).state.savedLayouts
          = st.savedLayouts ++ xs ∧
      (importLayouts (some (Json.arr xs)) true false st).errorAlerted = false) ∧
    (importLayouts (some (Json.arr [Json.num 5, Json.obj [], Json.null])) true false
        ⟨[], some (some [])⟩).state.savedLayouts
      = [Json.num 5, Json.obj [], Json.null] := by
  have hgen : ∀ (st : StorageState) (xs : List Json),
      importLayouts (some (Json.arr xs)) true false st =
        ⟨{ savedLayouts := st.savedLayouts ++ xs,
           durable := some (some (st.savedLayouts ++ xs)) }, false, some xs.length⟩ := by
    intro st xs
    simp [importLayouts, saveLayoutsToStorage, loadSavedLayouts]
  refine ⟨fun st xs => ?_, ?_⟩
  · rw [hgen]
    exact ⟨rfl, rfl⟩
  · rw [hgen]
    rfl

/-- C10: when the durable blob is absent, or present but not valid JSON
(the parse throws into the `catch`), `loadSavedLayouts` resets the
in-memory list to the empty array — discarding whatever list was in
memory — and completes normally (the embedding is a total function:
no error escapes). -/
theorem loadSavedLayouts_c10 (st : StorageState)
    (h : st.durable = none ∨ st.durable = some none) :
    loadSavedLayouts st = { savedLayouts := [], durable := st.durable } := by
  rcases h with h | h <;> simp [loadSavedLayouts, h]

/-- C10 witness: a non-empty in-memory list is reset to empty when the
durable key is absent. -/
theorem loadSavedLayouts_c10_witness :
    loadSavedLayouts ⟨[Json.null], none⟩ = ⟨[], none⟩ :=
  loadSavedLayouts_c10 ⟨[Json.null], none⟩ (Or.inl rfl)

/-- C1 counterexample: a recompute changing the scale from 1 to 2 leaves
an artwork at (20, 20) sized 100 by 100 px completely untouched — the
source skips the rescale loop whenever the old scale is the sentinel
value 1 — so its pixel size is not multiplied by `newScale/oldScale = 2`
(100 times 2 is not 100). -/
theorem updateWallRescale_c1_counterexample :
    updateWallRescale 1 2 [⟨20, 20, 100, 100, none, none, none⟩]
        = [⟨20, 20, 100, 100, none, none, none⟩] ∧
    (100 : ℚ) * (2 / 1) ≠ 100 := by
  constructor
  · simp [updateWallRescale]
  · norm_num

/-- C1 (amended): when a recompute changes the scale from `o` to `n` and
the old scale is not the initial sentinel 1, every artwork's pixel
position, pixel width/height, image-container pixel size and frame/matte
pixel padding are multiplied by `n / o`, and consequently the physical
value recovered via `pixelsToUnits` at the new scale, in every unit,
equals the one before the rescale: physical geometry is invariant. -/
theorem updateWallRescale_c1 (o n : ℚ) (ho : 0 < o) (hn : 0 < n)
    (hsent : o ≠ 1) (hchange : o ≠ n) (artworks : List ArtworkEl) :
    updateWallRescale o n artworks = artworks.map (rescaleArtwork (n / o)) ∧
    ∀ a ∈ artworks,
      (rescaleArtwork (n / o) a).left = a.left * (n / o) ∧
      (rescaleArtwork (n / o) a).top = a.top * (n / o) ∧
      (rescaleArtwork (n / o) a).width = a.width * (n / o) ∧
      (rescaleArtwork (n / o) a).height = a.height * (n / o) ∧
      (rescaleArtwork (n / o) a).containerSize
        = a.containerSize.map (fun wh => (wh.1 * (n / o), wh.2 * (n / o))) ∧
      (rescaleArtwork (n / o) a).framePadding
        = a.framePadding.map (fun p => p * (n / o)) ∧
      (rescaleArtwork (n / o) a).mattePadding
        = a.mattePadding.map (fun p => p * (n / o)) ∧
      ∀ u : MeasUnit,
        pixelsToUnits ((rescaleArtwork (n / o) a).width) u n
          = pixelsToUnits a.width u o ∧
        pixelsToUnits ((rescaleArtwork (n / o) a).height) u n
          = pixelsToUnits a.height u o ∧
        pixelsToUnits ((rescaleArtwork (n / o) a).left) u n
          = pixelsToUnits a.left u o ∧
        pixelsToUnits ((rescaleArtwork (n / o) a).top) u n
          = pixelsToUnits a.top u o := by
  have ho' : o ≠ 0 := ne_of_gt ho
  have hn' : n ≠ 0 := ne_of_gt hn
  have key : ∀ x : ℚ, x * (n / o) / n = x / o := by
    intro x
    field_simp
    ring
  have hphys : ∀ (x : ℚ) (u : MeasUnit),
      pixelsToUnits (x * (n / o)) u n = pixelsToUnits x u o := by
    intro x u
    cases u <;> simp [pixelsToUnits, inchesToCm, inchesToMm, key]
  have hpad : ∀ (v : Option ℚ),
      v.map (fun p => if p = 0 then p else p * (n / o))
        = v.map (fun p => p * (n / o)) := by
    intro v
    cases v with
    | none => rfl
    | some p =>
      by_cases hp : p = 0
      · simp [hp]
      · simp [hp]
  constructor
  · rw [updateWallRescale, if_pos ⟨hchange, hsent⟩]
  · intro a _ha
    refine ⟨rfl, rfl, rfl, rfl, rfl, hpad _, hpad _, ?_⟩
    intro u
    exact ⟨hphys a.width u, hphys a.height u, hphys a.left u, hphys a.top u⟩

/-- C1 witness: a recompute from scale 2 to scale 4 doubles every pixel
quantity of a framed artwork (including its image container and nonzero
frame padding, and a zero matte padding stays zero, equal to its double),
and its physical width in inches is 50 both before and after. -/
theorem updateWallRescale_c1_witness :
    updateWallRescale 2 4 [⟨20, 20, 100, 100, some (80, 60), some 10, some 0⟩]
        = [⟨40, 40, 200, 200, some (160, 120), some 20, some 0⟩] ∧
    pixelsToUnits 200 .inches 4 = pixelsToUnits 100 .inches 2 ∧
    pixelsToUnits 100 .inches 2 = 50 := by
  have h := updateWallRescale_c1 2 4 (by norm_num) (by norm_num)
    (by norm_num) (by norm_num)
    [⟨20, 20, 100, 100, some (80, 60), some 10, some 0⟩]
  have hmem : (⟨20, 20, 100, 100, some (80, 60), some 10, some 0⟩ : ArtworkEl)
      ∈ [(⟨20, 20, 100, 100, some (80, 60), some 10, some 0⟩ : ArtworkEl)] :=
    List.mem_singleton.mpr rfl
  have hw := ((h.2 _ hmem).2.2.2.2.2.2.2 .inches).1
  refine ⟨?_, ?_, ?_⟩
  · rw [h.1]
    simp only [List.map_cons, List.map_nil, List.cons.injEq, and_true]
    simp [rescaleArtwork]
    norm_num
  · have : ((100 : ℚ) * (4 / 2)) = 200 := by norm_num
    rw [← this]
    convert hw using 2
  · simp [pixelsToUnits]
    norm_num

section Scan

variable (cand : Rect → Prop) [DecidablePred cand] (dist : Rect → ℚ)

/-- Any box returned by the nearest-candidate fold either was the initial
accumulator or is a candidate from the list, paired with its gap. -/
lemma scanFold_some (l : List Rect) :
    ∀ (acc : Option (Rect × ℚ)) (b : Rect) (d : ℚ),
      List.foldl (scanStep cand dist) acc l = some (b, d) →
      acc = some (b, d) ∨ (b ∈ l ∧ cand b ∧ d = dist b) := by
  induction l with
  | nil =>
    intro acc b d h
    exact Or.inl h
  | cons o os ih =>
    intro acc b d h
    rw [List.foldl_cons] at h
    rcases ih (scanStep cand dist acc o) b d h with h1 | h1
    · cases acc with
      | none =>
        simp only [scanStep] at h1
        by_cases hc : cand o
        · rw [if_pos hc] at h1
          simp only [Option.some.injEq, Prod.mk.injEq] at h1
          obtain ⟨rfl, rfl⟩ := h1
          exact Or.inr ⟨List.mem_cons_self o os, hc, rfl⟩
        · rw [if_neg hc] at h1
          exact Option.noConfusion h1
      | some p =>
        simp only [scanStep] at h1
        by_cases hc : cand o
        · rw [if_pos hc] at h1
          by_cases hlt : dist o < p.2
          · rw [if_pos hlt] at h1
            simp only [Option.some.injEq, Prod.mk.injEq] at h1
            obtain ⟨rfl, rfl⟩ := h1
            exact Or.inr ⟨List.mem_cons_self o os, hc, rfl⟩
          · rw [if_neg hlt] at h1
            exact Or.inl h1
        · rw [if_neg hc] at h1
          exact Or.inl h1
    · exact Or.inr ⟨List.mem_cons_of_mem o h1.1, h1.2.1, h1.2.2⟩

/-- The gap of the box returned by the fold never exceeds the gap held by
the accumulator it started from. -/
lemma scanFold_le_acc (l : List Rect) :
    ∀ (acc : Option (Rect × ℚ)) (b : Rect) (d : ℚ) (p : Rect × ℚ),
      List.foldl (scanStep cand dist) acc l = some (b, d) →
      acc = some p → d ≤ p.2 := by
  induction l with
  | nil =>
    intro acc b d p h hacc
    rw [List.foldl_nil, hacc] at h
    simp only [Option.some.injEq] at h
    rw [h]
  | cons o os ih =>
    intro acc b d p h hacc
    rw [List.foldl_cons] at h
    subst hacc
    simp only [scanStep] at h
    by_cases hc : cand o
    · rw [if_pos hc] at h
      by_cases hlt : dist o < p.2
      · rw [if_pos hlt] at h
        exact le_trans (ih _ b d (o, dist o) h rfl) (le_of_lt hlt)
      · rw [if_neg hlt] at h
        exact ih _ b d p h rfl
    · rw [if_neg hc] at h
      exact ih _ b d p h rfl

/-- The gap of the box returned by the fold is minimal among the gaps of
all candidates in the list. -/
lemma scanFold_min (l : List Rect) :
    ∀ (acc : Option (Rect × ℚ)) (b : Rect) (d : ℚ),
      List.foldl (scanStep cand dist) acc l = some (b, d) →
      ∀ o ∈ l, cand o → d ≤ dist o := by
  induction l with
  | nil =>
    intro acc b d _h o ho
    exact absurd ho (List.not_mem_nil o)
  | cons o os ih =>
    intro acc b d h x hx hcx
    rw [List.foldl_cons] at h
    rcases List.mem_cons.mp hx with rfl | hxos
    · have hstep : ∃ q : Rect × ℚ,
          scanStep cand dist acc x = some q ∧ q.2 ≤ dist x := by
        cases acc with
        | none =>
          refine ⟨(x, dist x), ?_, le_refl _⟩
          simp only [scanStep, if_pos hcx]
        | some p =>
          by_cases hlt : dist x < p.2
          · refine ⟨(x, dist x), ?_, le_refl _⟩
            simp only [scanStep, if_pos hcx, if_pos hlt]
          · refine ⟨p, ?_, le_of_not_lt hlt⟩
            simp only [scanStep, if_pos hcx, if_neg hlt]
      obtain ⟨q, hq, hle⟩ := hstep
      rw [hq] at h
      exact le_trans (scanFold_le_acc cand dist os _ b d q h rfl) hle
    · exact ih _ b d h x hxos hcx

/-- If the fold ends with no nearest box, it started with none and no
element of the list is a candidate. -/
lemma scanFold_none (l : List Rect) :
    ∀ (acc : Option (Rect × ℚ)),
      List.foldl (scanStep cand dist) acc l = none →
      acc = none ∧ ∀ o ∈ l, ¬ cand o := by
  induction l with
  | nil =>
    intro acc h
    rw [List.foldl_nil] at h
    exact ⟨h, fun o ho => absurd ho (List.not_mem_nil o)⟩
  | cons o os ih =>
    intro acc h
    rw [List.foldl_cons] at h
    obtain ⟨hstep, hrest⟩ := ih _ h
    have hco : ¬ cand o ∧ acc = none := by
      by_cases hc : cand o
      · exfalso
        cases acc with
        | none =>
          simp [scanStep, hc] at hstep
        | some p =>
          by_cases hlt : dist o < p.2
          · simp [scanStep, hc, hlt] at hstep
          · simp [scanStep, hc, hlt] at hstep
      · refine ⟨hc, ?_⟩
        simpa only [scanStep, if_neg hc] using hstep
    refine ⟨hco.2, ?_⟩
    intro x hx
    rcases List.mem_cons.mp hx with rfl | hxos
    · exact hco.1
    · exact hrest x hxos

/-- Conversely, with no candidate in the list the fold stays at none. -/
lemma scanFold_none_of (l : List Rect) :
    (∀ o ∈ l, ¬ cand o) →
      List.foldl (scanStep cand dist) none l = none := by
  induction l with
  | nil =>
    intro _
    rfl
  | cons o os ih =>
    intro h
    rw [List.foldl_cons]
    have hc : ¬ cand o := h o (List.mem_cons_self o os)
    have hstep : scanStep cand dist none o = none := by
      simp only [scanStep, if_neg hc]
    rw [hstep]
    exact ih (fun x hx => h x (List.mem_cons_of_mem o hx))

/-- Soundness of one direction of the nearest-neighbor search: the box it
returns comes from the list, satisfies the candidacy test, carries its
own gap, and that gap is minimal among all candidates. -/
lemma scanNearest_some (l : List Rect) (b : Rect) (d : ℚ)
    (h : scanNearest cand dist l = some (b, d)) :
    b ∈ l ∧ cand b ∧ d = dist b ∧ ∀ o ∈ l, cand o → d ≤ dist o := by
  have h2 := scanFold_min cand dist l none b d h
  rcases scanFold_some cand dist l none b d h with h1 | h1
  · exact Option.noConfusion h1
  · exact ⟨h1.1, h1.2.1, h1.2.2, h2⟩

/-- The search comes back empty exactly when no box passes the candidacy
test. -/
lemma scanNearest_none_iff (l : List Rect) :
    scanNearest cand dist l = none ↔ ∀ o ∈ l, ¬ cand o := by
  constructor
  · intro h
    exact (scanFold_none cand dist l none h).2
  · intro h
    exact scanFold_none_of cand dist l h

end Scan

/-- Boxes that overlap with positive area fail all four directional
candidacy tests: each direction requires the other box to lie entirely
beyond one edge of the selected box, which contradicts overlap on that
axis. -/
lemma rectsOverlap_not_cand (s o : Rect) (h : rectsOverlap s o) :
    ¬ isLeftCand s o ∧ ¬ isRightCand s o ∧ ¬ isTopCand s o ∧ ¬ isBottomCand s o := by
  unfold rectsOverlap horizontalOverlap verticalOverlap at h
  obtain ⟨hh, hv⟩ := h
  have hh' : 0 < min s.right o.right - max s.left o.left := by
    rcases lt_max_iff.mp hh with h0 | h0
    · exact absurd h0 (lt_irrefl 0)
    · exact h0
  have hv' : 0 < min s.bottom o.bottom - max s.top o.top := by
    rcases lt_max_iff.mp hv with h0 | h0
    · exact absurd h0 (lt_irrefl 0)
    · exact h0
  have hx : max s.left o.left < min s.right o.right := by linarith
  have hy : max s.top o.top < min s.bottom o.bottom := by linarith
  have h1 : s.left < o.right :=
    lt_of_le_of_lt (le_max_left _ _) (lt_of_lt_of_le hx (min_le_right _ _))
  have h2 : o.left < s.right :=
    lt_of_le_of_lt (le_max_right _ _) (lt_of_lt_of_le hx (min_le_left _ _))
  have h3 : s.top < o.bottom :=
    lt_of_le_of_lt (le_max_left _ _) (lt_of_lt_of_le hy (min_le_right _ _))
  have h4 : o.top < s.bottom :=
    lt_of_le_of_lt (le_max_right _ _) (lt_of_lt_of_le hy (min_le_left _ _))
  exact ⟨fun hc => absurd hc.1 (not_le.mpr h1),
         fun hc => absurd hc.1 (not_le.mpr h2),
         fun hc => absurd hc.1 (not_le.mpr h3),
         fun hc => absurd hc.1 (not_le.mpr h4)⟩

/-- C2: in each direction, a box is returned only if it comes from the
other-artworks list, lies on that side of the selected box
(`otherRight <= artworkLeft` and its analogues) with strictly positive
overlap on the perpendicular axis, and its axis-aligned gap is minimal
among all such candidates; the search is empty exactly when no candidate
exists; and a box overlapping the selected box is never returned in any
direction. -/
theorem nearestNeighbor_c2 (s : Rect) (others : List Rect) :
    (∀ b d, nearestLeft s others = some (b, d) →
      b ∈ others ∧ isLeftCand s b ∧ d = s.left - b.right ∧
        ∀ o ∈ others, isLeftCand s o → d ≤ s.left - o.right) ∧
    (nearestLeft s others = none ↔ ∀ o ∈ others, ¬ isLeftCand s o) ∧
    (∀ b d, nearestRight s others = some (b, d) →
      b ∈ others ∧ isRightCand s b ∧ d = b.left - s.right ∧
        ∀ o ∈ others, isRightCand s o → d ≤ o.left - s.right) ∧
    (nearestRight s others = none ↔ ∀ o ∈ others, ¬ isRightCand s o) ∧
    (∀ b d, nearestTop s others = some (b, d) →
      b ∈ others ∧ isTopCand s b ∧ d = s.top - b.bottom ∧
        ∀ o ∈ others, isTopCand s o → d ≤ s.top - o.bottom) ∧
    (nearestTop s others = none ↔ ∀ o ∈ others, ¬ isTopCand s o) ∧
    (∀ b d, nearestBottom s others = some (b, d) →
      b ∈ others ∧ isBottomCand s b ∧ d = b.top - s.bottom ∧
        ∀ o ∈ others, isBottomCand s o → d ≤ o.top - s.bottom) ∧
    (nearestBottom s others = none ↔ ∀ o ∈ others, ¬ isBottomCand s o) ∧
    (∀ o ∈ others, rectsOverlap s o →
      (∀ d, nearestLeft s others ≠ some (o, d)) ∧
      (∀ d, nearestRight s others ≠ some (o, d)) ∧
      (∀ d, nearestTop s others ≠ some (o, d)) ∧
      (∀ d, nearestBottom s others ≠ some (o, d))) := by
  refine ⟨fun b d h => scanNearest_some _ _ others b d h,
    scanNearest_none_iff (isLeftCand s) (fun o => s.left - o.right) others,
    fun b d h => scanNearest_some _ _ others b d h,
    scanNearest_none_iff (isRightCand s) (fun o => o.left - s.right) others,
    fun b d h => scanNearest_some _ _ others b d h,
    scanNearest_none_iff (isTopCand s) (fun o => s.top - o.bottom) others,
    fun b d h => scanNearest_some _ _ others b d h,
    scanNearest_none_iff (isBottomCand s) (fun o => o.top - s.bottom) others,
    ?_⟩
  intro o ho hov
  have hnc := rectsOverlap_not_cand s o hov
  refine ⟨?_, ?_, ?_, ?_⟩
  · intro d h
    exact hnc.1 (scanNearest_some _ _ others o d h).2.1
  · intro d h
    exact hnc.2.1 (scanNearest_some _ _ others o d h).2.1
  · intro d h
    exact hnc.2.2.1 (scanNearest_some _ _ others o d h).2.1
  · intro d h
    exact hnc.2.2.2 (scanNearest_some _ _ others o d h).2.1

/-- C2 witness: the spec's concrete scenario — selected box
[100,100]-[200,200], other box [250,120]-[350,180] — has the other box as
a right-direction candidate at gap 50, as the theorem reports for the
value the search computes. -/
theorem nearestNeighbor_c2_witness :
    (⟨250, 120, 100, 60⟩ : Rect) ∈ [(⟨250, 120, 100, 60⟩ : Rect)] ∧
    isRightCand ⟨100, 100, 100, 100⟩ ⟨250, 120, 100, 60⟩ ∧
    (50 : ℚ) = (⟨250, 120, 100, 60⟩ : Rect).left - (⟨100, 100, 100, 100⟩ : Rect).right := by
  have hcand : isRightCand (⟨100, 100, 100, 100⟩ : Rect) ⟨250, 120, 100, 60⟩ := by
    constructor
    · show (⟨100, 100, 100, 100⟩ : Rect).right ≤ (250 : ℚ)
      norm_num [Rect.right]
    · show (0 : ℚ) < verticalOverlap ⟨100, 100, 100, 100⟩ ⟨250, 120, 100, 60⟩
      norm_num [verticalOverlap, Rect.bottom]
  have heval : nearestRight ⟨100, 100, 100, 100⟩ [⟨250, 120, 100, 60⟩]
      = some (⟨250, 120, 100, 60⟩, 50) := by
    show (if isRightCand (⟨100, 100, 100, 100⟩ : Rect) ⟨250, 120, 100, 60⟩ then
        some ((⟨250, 120, 100, 60⟩ : Rect),
          (⟨250, 120, 100, 60⟩ : Rect).left - (⟨100, 100, 100, 100⟩ : Rect).right)
      else none) = some (⟨250, 120, 100, 60⟩, 50)
    rw [if_pos hcand]
    norm_num [Rect.right]
  have h := (nearestNeighbor_c2 ⟨100, 100, 100, 100⟩ [⟨250, 120, 100, 60⟩]).2.2.1
      ⟨250, 120, 100, 60⟩ 50 heval
  exact ⟨h.1, h.2.1, h.2.2.1⟩

/-- C7 counterexample: selected box [100,100]-[200,200] with a right
neighbor [250,120]-[350,400].  The overlap segment on the vertical axis
is [120,200], midpoint 160, but the code draws the right guide at
y = 205, the average of the two boxes' center lines — so the guide is not
positioned at the midpoint of the overlap segment. -/
theorem guides_c7_counterexample :
    rightGuide ⟨100, 100, 100, 100⟩ [⟨250, 120, 100, 280⟩] 1000
        = some ⟨200, 205, 250, 205⟩ ∧
    overlapSegmentMidY ⟨100, 100, 100, 100⟩ ⟨250, 120, 100, 280⟩ = 160 ∧
    (205 : ℚ) ≠ 160 := by
  have hcand : isRightCand (⟨100, 100, 100, 100⟩ : Rect) ⟨250, 120, 100, 280⟩ := by
    constructor
    · show (⟨100, 100, 100, 100⟩ : Rect).right ≤ (250 : ℚ)
      norm_num [Rect.right]
    · show (0 : ℚ) < verticalOverlap ⟨100, 100, 100, 100⟩ ⟨250, 120, 100, 280⟩
      norm_num [verticalOverlap, Rect.bottom]
  have heval : nearestRight ⟨100, 100, 100, 100⟩ [⟨250, 120, 100, 280⟩]
      = some (⟨250, 120, 100, 280⟩, 50) := by
    show (if isRightCand (⟨100, 100, 100, 100⟩ : Rect) ⟨250, 120, 100, 280⟩ then
        some ((⟨250, 120, 100, 280⟩ : Rect),
          (⟨250, 120, 100, 280⟩ : Rect).left - (⟨100, 100, 100, 100⟩ : Rect).right)
      else none) = some (⟨250, 120, 100, 280⟩, 50)
    rw [if_pos hcand]
    norm_num [Rect.right]
  refine ⟨?_, ?_, by norm_num⟩
  · simp only [rightGuide, heval]
    norm_num [Rect.right, Rect.centerY, Guide.mk.injEq]
  · norm_num [overlapSegmentMidY, Rect.bottom]

/-- C7 (amended): with a directional neighbor, the drawn guide is the
segment between the two facing edges positioned, on the perpendicular
axis, at the average of the two boxes' center lines (the midpoint of the
two centers, not of the overlap segment); with no neighbor, the guide
runs from the artwork edge to the wall edge at the selected box's own
center line, and only when that gap is strictly positive. -/
theorem guides_c7 (s : Rect) (others : List Rect) (wallWidth wallHeight : ℚ) :
    (∀ o d, nearestLeft s others = some (o, d) →
      leftGuide s others =
        some ⟨o.right, (s.centerY + o.centerY) / 2, s.left, (s.centerY + o.centerY) / 2⟩) ∧
    (nearestLeft s others = none →
      (0 < s.left → leftGuide s others = some ⟨0, s.centerY, s.left, s.centerY⟩) ∧
      (¬ 0 < s.left → leftGuide s others = none)) ∧
    (∀ o d, nearestRight s others = some (o, d) →
      rightGuide s others wallWidth =
        some ⟨s.right, (s.centerY + o.centerY) / 2, o.left, (s.centerY + o.centerY) / 2⟩) ∧
    (nearestRight s others = none →
      (s.right < wallWidth →
        rightGuide s others wallWidth = some ⟨s.right, s.centerY, wallWidth, s.centerY⟩) ∧
      (¬ s.right < wallWidth → rightGuide s others wallWidth = none)) ∧
    (∀ o d, nearestTop s others = some (o, d) →
      topGuide s others =
        some ⟨(s.centerX + o.centerX) / 2, o.bottom, (s.centerX + o.centerX) / 2, s.top⟩) ∧
    (nearestTop s others = none →
      (0 < s.top → topGuide s others = some ⟨s.centerX, 0, s.centerX, s.top⟩) ∧
      (¬ 0 < s.top → topGuide s others = none)) ∧
    (∀ o d, nearestBottom s others = some (o, d) →
      bottomGuide s others wallHeight =
        some ⟨(s.centerX + o.centerX) / 2, s.bottom, (s.centerX + o.centerX) / 2, o.top⟩) ∧
    (nearestBottom s others = none →
      (s.bottom < wallHeight →
        bottomGuide s others wallHeight = some ⟨s.centerX, s.bottom, s.centerX, wallHeight⟩) ∧
      (¬ s.bottom < wallHeight → bottomGuide s others wallHeight = none)) := by
  refine ⟨?_, ?_, ?_, ?_, ?_, ?_, ?_, ?_⟩
  · intro o d h
    simp only [leftGuide, h, Rect.centerY]
  · intro h
    constructor
    · intro hgap
      simp only [leftGuide, h]
      rw [if_pos hgap]
    · intro hgap
      simp only [leftGuide, h]
      rw [if_neg hgap]
  · intro o d h
    simp only [rightGuide, h, Rect.centerY]
  · intro h
    constructor
    · intro hgap
      simp only [rightGuide, h]
      rw [if_pos hgap]
    · intro hgap
      simp only [rightGuide, h]
      rw [if_neg hgap]
  · intro o d h
    simp only [topGuide, h, Rect.centerX]
  · intro h
    constructor
    · intro hgap
      simp only [topGuide, h]
      rw [if_pos hgap]
    · intro hgap
      simp only [topGuide, h]
      rw [if_neg hgap]
  · intro o d h
    simp only [bottomGuide, h, Rect.centerX]
  · intro h
    constructor
    · intro hgap
      simp only [bottomGuide, h]
      rw [if_pos hgap]
    · intro hgap
      simp only [bottomGuide, h]
      rw [if_neg hgap]

/-- C7 witness: with no other artwork, the right guide of the box
[100,100]-[200,200] on a 1000 px wide wall runs from the artwork's right
edge to the wall edge at its own center line y = 150. -/
theorem guides_c7_witness :
    rightGuide ⟨100, 100, 100, 100⟩ [] 1000 = some ⟨200, 150, 1000, 150⟩ := by
  have hnone : nearestRight (⟨100, 100, 100, 100⟩ : Rect) [] = none := rfl
  have h := ((guides_c7 ⟨100, 100, 100, 100⟩ [] 1000 0).2.2.2.1 hnone).1
    (by norm_num [Rect.right])
  rw [h]
  norm_num [Rect.right, Rect.centerY, Guide.mk.injEq]

end Wallspace
